import Mathlib

/-! # newrelic-cli: Windows version validator and recipe filter

A shallow embedding of `internal/install/discovery/os_windows_validator.go`
together with the two Go standard-library functions it calls
(`strings.Split` with a one-byte separator and `strconv.Atoi`).

Go strings are modelled as lists of characters.  Every byte the validator
inspects (the dot, the decimal digits, the two signs) is ASCII, so splitting
and parsing by character agrees with splitting and parsing by byte.
-/

/-- A Go `string`. -/
abbrev GoString := List Char

namespace strings

/-- Go `strings.Split(s, sep)` for a separator of one byte: the pieces of `s`
between consecutive occurrences of `sep`, in order.  The result always has
one more element than `s` has separators. -/
def Split : GoString → Char → List GoString
  | [], _ => [[]]
  | c :: cs, sep =>
    if c = sep then [] :: Split cs sep
    else
      match Split cs sep with
      | [] => [[c]]
      | piece :: rest => (c :: piece) :: rest

end strings

namespace strconv

/-- The two error kinds of Go `strconv.NumError`. -/
inductive NumError where
  | ErrSyntax
  | ErrRange
  deriving DecidableEq

/-- Go `strconv.lower`: `c | ('x' - 'X')` on the byte value. -/
def lower (c : Nat) : Nat := c ||| 32

/-- The largest `uint64`. -/
def maxUint64 : Nat := 2 ^ 64 - 1

/-- The digit value `d` that the loop of `ParseUint` assigns to a byte, or
`none` in the `default` branch of its `switch` (base 10, so the underscore
branch is not taken). -/
def digitValue (c : Char) : Option Nat :=
  if 48 ≤ c.toNat ∧ c.toNat ≤ 57 then some (c.toNat - 48)
  else if 97 ≤ lower c.toNat ∧ lower c.toNat ≤ 122 then some (lower c.toNat - 97 + 10)
  else none

/-- The `for _, c := range []byte(s)` loop of `ParseUint` with `base = 10`,
carrying the accumulator `n`.  `cutoff` is `maxUint64/10 + 1`; `uint64`
arithmetic wraps modulo `2 ^ 64`. -/
def ParseUintLoop (maxVal : Nat) : Nat → GoString → Nat × Option NumError
  | n, [] => (n, none)
  | n, c :: cs =>
    match digitValue c with
    | none => (0, some .ErrSyntax)
    | some d =>
      if d ≥ 10 then (0, some .ErrSyntax)
      else if n ≥ maxUint64 / 10 + 1 then (maxVal, some .ErrRange)
      else
        let n10 := (n * 10) % 2 ^ 64
        let n1 := (n10 + d) % 2 ^ 64
        if n1 < n10 ∨ n1 > maxVal then (maxVal, some .ErrRange)
        else ParseUintLoop maxVal n1 cs

/-- Go `strconv.ParseUint(s, 10, 0)`: `bitSize = 0` selects `IntSize`, and
`maxVal = uint64(1)<<uint(bitSize) - 1` in wrapping `uint64` arithmetic. -/
def ParseUint (IntSize : Nat) (s : GoString) : Nat × Option NumError :=
  if s = [] then (0, some .ErrSyntax)
  else ParseUintLoop ((2 ^ IntSize % 2 ^ 64 + 2 ^ 64 - 1) % 2 ^ 64) 0 s

/-- Conversion of an integer to a signed machine integer of `bits` bits. -/
def wrapInt (bits : Nat) (x : Int) : Int :=
  (x + 2 ^ (bits - 1)) % 2 ^ bits - 2 ^ (bits - 1)

/-- Go `strconv.ParseInt(s, 10, 0)`: picks off a leading sign, converts the
rest with `ParseUint` and checks the range of a signed `IntSize`-bit
integer. -/
def ParseInt (IntSize : Nat) (s : GoString) : Int × Option NumError :=
  match s with
  | [] => (0, some .ErrSyntax)
  | c :: cs =>
    let neg := decide (c = '-')
    let s1 := if c = '+' then cs else if c = '-' then cs else c :: cs
    match ParseUint IntSize s1 with
    | (_, some .ErrSyntax) => (0, some .ErrSyntax)
    | (un, _) =>
      let cutoff := 2 ^ (IntSize - 1)
      if neg = false ∧ un ≥ cutoff then (wrapInt 64 (cutoff - 1), some .ErrRange)
      else if neg = true ∧ un > cutoff then (wrapInt 64 (-(cutoff : Int)), some .ErrRange)
      else
        let n := wrapInt 64 un
        (if neg then wrapInt 64 (-n) else n, none)

/-- Go `strconv.Atoi(s)`: `ParseInt(s, 10, 0)` converted to `int`.  (The
fast path of the library for short inputs computes the same result.) -/
def Atoi (IntSize : Nat) (s : GoString) : Int × Option NumError :=
  let r := ParseInt IntSize s
  (wrapInt IntSize r.1, r.2)

end strconv

namespace discovery

/-- The fields of `types.DiscoveryManifest` that the validator reads. -/
structure DiscoveryManifest where
  OS : GoString
  PlatformVersion : GoString

def windowsVersionNoLongerSupported : GoString :=
  "This version of Windows is no longer supported".toList

def windowsNoVersionMessage : GoString :=
  "Failed to identified a valid version of Windows".toList

/-- A Go run-time panic. -/
inductive Panic where
  | indexOutOfRange
  deriving DecidableEq

deriving instance DecidableEq for Except

/-- The slice index expression `xs[i]`, which panics when `i` is out of range. -/
def index (xs : List GoString) (i : Nat) : Except Panic GoString :=
  match xs[i]? with
  | some x => .ok x
  | none => .error .indexOutOfRange

def ensureMinimumVersion (major : Int) (minor : Int) : GoString :=
  if major < 6 then windowsVersionNoLongerSupported
  else if major = 6 ∧ minor = 0 then windowsVersionNoLongerSupported
  else "".toList

/-- The method `OsWindowsValidator.Execute`.  `IntSize` is the width of Go's
`int` on the target (32 or 64). -/
def Execute (IntSize : Nat) (m : DiscoveryManifest) : Except Panic GoString :=
  if m.OS ≠ "windows".toList then .ok "".toList
  else
    let versions := strings.Split m.PlatformVersion '.'
    match versions.length with
    | 0 => .ok windowsNoVersionMessage
    | 1 =>
      match index versions 0 with
      | .error e => .error e
      | .ok v0 =>
        match strconv.Atoi IntSize v0 with
        | (major, none) => .ok (ensureMinimumVersion major 0)
        | (_, some _) => .ok windowsNoVersionMessage
    | _ =>
      match index versions 0 with
      | .error e => .error e
      | .ok v0 =>
        match strconv.Atoi IntSize v0 with
        | (major, none) =>
          match index versions 1 with
          | .error e => .error e
          | .ok v1 =>
            match strconv.Atoi IntSize v1 with
            | (minor, none) => .ok (ensureMinimumVersion major minor)
            | (_, some _) => .ok windowsNoVersionMessage
        | (_, some _) => .ok windowsNoVersionMessage

end discovery

namespace strconv

/-- The character is an ASCII decimal digit. -/
def isDigit (c : Char) : Bool := decide (48 ≤ c.toNat ∧ c.toNat ≤ 57)

/-- The natural number that a string of decimal digits denotes, read from
the accumulator `n` onwards. -/
def decimalFrom (n : Nat) (s : GoString) : Nat :=
  s.foldl (fun acc c => acc * 10 + (c.toNat - 48)) n

/-- The natural number that a string of decimal digits denotes. -/
def decimalValue (s : GoString) : Nat := decimalFrom 0 s

/-- A non-empty string of ASCII decimal digits. -/
def isNumeral (s : GoString) : Bool := !s.isEmpty && s.all isDigit

/-- An optional sign in front of a numeral. -/
inductive Sign where
  | absent
  | plus
  | minus
  deriving DecidableEq

/-- The characters of an optional sign. -/
def Sign.chars : Sign → GoString
  | .absent => []
  | .plus => ['+']
  | .minus => ['-']

/-- The integer denoted by a sign and a magnitude. -/
def Sign.apply : Sign → Nat → Int
  | .minus, n => -(n : Int)
  | _, n => (n : Int)

end strconv

namespace discovery

/-- The `i`-th dot-delimited component of a platform-version string, if the
string has that many components. -/
def component (v : GoString) (i : Nat) : Option GoString :=
  (strings.Split v '.')[i]?

end discovery

/-! ## The recipe filter runner

`recipe_filter_runner.go` is not among the sources; only its test file is.
The definitions below follow sections 3, 4.2, 4.3 and 4.4 of the
specification and the names used by `recipe_filter_runner_test.go`.
-/

namespace recipes

/-- Modelled from the spec: the pre-install configuration of a recipe, which
holds the validation command string (`types.OpenInstallationPreInstallConfiguration`,
declared outside the sources at hand). -/
structure OpenInstallationPreInstallConfiguration where
  RequireAtDiscovery : GoString

/-- Modelled from the spec: a recipe is a name, a display name, a list of
process-name match patterns and a pre-install configuration
(`types.OpenInstallationRecipe`, declared outside the sources at hand). -/
structure OpenInstallationRecipe where
  Name : GoString
  DisplayName : GoString
  ProcessMatch : List GoString
  PreInstall : OpenInstallationPreInstallConfiguration

/-- Modelled from the spec: a discovered process has a name, a command line
and a numeric process id (`types.GenericProcess`, of which the test file
gives the implementation `mockProcess`). -/
structure GenericProcess where
  name : GoString
  cmdline : GoString
  pid : Int

/-- Modelled from the spec: the host snapshot is an OS identifier, a platform
version and the ordered sequence of discovered processes
(`types.DiscoveryManifest`, declared outside the sources at hand). -/
structure HostSnapshot where
  OS : GoString
  PlatformVersion : GoString
  DiscoveredProcesses : List GenericProcess

/-- Modelled from the spec: the classification outcome of validating one
recipe (section 3).  The free-text messages the outcomes carry are left
out. -/
inductive ClassificationOutcome where
  | Compatible
  | DetectedUnsupported
  | Unsupported
  | ValidationError
  deriving DecidableEq

/-- Modelled from the spec: what running the external validation command
yields, an exit code, a failure to start, or a kill because the caller's
context was cancelled while the command was in flight (sections 4.3 and 7;
the process execution itself is an external collaborator). -/
inductive ExecutionResult where
  | exited (code : Int)
  | failed
  | cancelled
  deriving DecidableEq

/-- Modelled from the spec: the sentinel exit code documented as "detected";
the test file gives its value, `exit 132 should report DETECTED`. -/
def detectedExitCode : Int := 132

/-- Modelled from the spec: `pattern` occurs in `text` as a substring, case
sensitive (section 4.2; an exact match is a substring match). -/
def containsSubstring (text pattern : GoString) : Bool :=
  text.tails.any (fun t => pattern.isPrefixOf t)

/-- Modelled from the spec: the process match predicate of section 4.2, true
when at least one pattern matches at least one discovered process's name or
command line, and trivially true for an empty pattern list. -/
def processMatch (patterns : List GoString) (processes : List GenericProcess) : Bool :=
  patterns.isEmpty ||
    patterns.any (fun p =>
      processes.any (fun q => containsSubstring q.name p || containsSubstring q.cmdline p))

/-- Modelled from the spec: the exit-status classification table of section
4.3. -/
def classify : ExecutionResult → ClassificationOutcome
  | .exited code =>
    if code = 0 then .Compatible
    else if code = detectedExitCode then .DetectedUnsupported
    else .Unsupported
  | .failed => .ValidationError
  | .cancelled => .ValidationError

/-- Modelled from the spec: the external validation runner of section 4.3.
`exec` stands for the spawning of the external command; an empty command
string is `Compatible` without any execution. -/
def runValidation (exec : GoString → HostSnapshot → ExecutionResult)
    (command : GoString) (host : HostSnapshot) : ClassificationOutcome :=
  if command = [] then .Compatible else classify (exec command host)

/-- Modelled from the spec: a status-reporter subscriber that counts the two
notification kinds, as `execution.MockStatusReporter` of the test file
does. -/
structure MockStatusReporter where
  RecipeDetectedCallCount : Nat
  RecipeUnsupportedCallCount : Nat
  deriving DecidableEq

/-- Modelled from the spec: the install status holds the registered
status-reporter subscribers (`execution.InstallStatus`). -/
structure InstallStatus where
  statusSubscribers : List MockStatusReporter
  deriving DecidableEq

/-- Modelled from the spec: the "recipe detected" callback, fanned out to
every subscriber. -/
def InstallStatus.RecipeDetected (s : InstallStatus) : InstallStatus :=
  ⟨s.statusSubscribers.map
    (fun r => { r with RecipeDetectedCallCount := r.RecipeDetectedCallCount + 1 })⟩

/-- Modelled from the spec: the "recipe unsupported" callback, fanned out to
every subscriber. -/
def InstallStatus.RecipeUnsupported (s : InstallStatus) : InstallStatus :=
  ⟨s.statusSubscribers.map
    (fun r => { r with RecipeUnsupportedCallCount := r.RecipeUnsupportedCallCount + 1 })⟩

/-- Modelled from the spec: steps 1 to 3 of the single-recipe algorithm of
section 4.4, a failed process match is `Unsupported` without running the
validation, otherwise the validation command is run and classified. -/
def evaluate (exec : GoString → HostSnapshot → ExecutionResult)
    (recipe : OpenInstallationRecipe) (host : HostSnapshot) : ClassificationOutcome :=
  if !recipe.ProcessMatch.isEmpty && !processMatch recipe.ProcessMatch host.DiscoveredProcesses
  then .Unsupported
  else runValidation exec recipe.PreInstall.RequireAtDiscovery host

/-- Modelled from the spec: step 4 of the single-recipe algorithm of section
4.4, `DetectedUnsupported` notifies "recipe detected", `Unsupported` notifies
"recipe unsupported", `Compatible` and `ValidationError` notify nothing. -/
def notify (status : InstallStatus) : ClassificationOutcome → InstallStatus
  | .DetectedUnsupported => status.RecipeDetected
  | .Unsupported => status.RecipeUnsupported
  | .Compatible => status
  | .ValidationError => status

/-- Modelled from the spec: the error a filter run returns for an excluded
recipe, the recipe's name and the reason. -/
structure FilterError where
  recipeName : GoString
  reason : ClassificationOutcome
  deriving DecidableEq

/-- Modelled from the spec: `RecipeFilterRunner.RunFilter` for one recipe
(section 4.4): the recipe is evaluated, the subscribers are notified, and an
error is returned unless the outcome is `Compatible`.  The result is the
error, if any, and the install status after the notifications. -/
def RunFilter (exec : GoString → HostSnapshot → ExecutionResult) (status : InstallStatus)
    (recipe : OpenInstallationRecipe) (host : HostSnapshot) :
    Option FilterError × InstallStatus :=
  let outcome := evaluate exec recipe host
  (if outcome = .Compatible then none else some ⟨recipe.Name, outcome⟩, notify status outcome)

/-- Modelled from the spec: the error of a filter run over a recipe set,
either the aggregated error that enumerates every excluded recipe by name
and reason (sections 3, 4.4 and 6), or the single cancellation error that
takes the place of the per-recipe entries (section 7). -/
inductive AggregateError where
  | excluded (entries : List FilterError)
  | cancelled
  deriving DecidableEq

/-- Modelled from the spec: the validation of the recipe was in flight when
the context was cancelled, that is, the evaluation reached the external
command (the outcome is a `ValidationError`) and the command was killed by
the cancellation. -/
def cancelledDuring (exec : GoString → HostSnapshot → ExecutionResult)
    (recipe : OpenInstallationRecipe) (host : HostSnapshot) : Bool :=
  decide (evaluate exec recipe host = .ValidationError) &&
    decide (exec recipe.PreInstall.RequireAtDiscovery host = .cancelled)

/-- Modelled from the spec: the pass of `ConfirmCompatibleRecipes` over the
recipe set (sections 4.4 and 7): the recipes are evaluated in sequence with
`RunFilter`, the install status is threaded through, and every outcome that
is not `Compatible` is collected.  No per-recipe failure stops the pass;
cancellation does, and then the result is `none` in place of the collected
entries, with the notifications sent so far. -/
def collectExcluded (exec : GoString → HostSnapshot → ExecutionResult) :
    InstallStatus → List OpenInstallationRecipe → HostSnapshot →
      Option (List FilterError) × InstallStatus
  | status, [], _ => (some [], status)
  | status, recipe :: rest, host =>
    if cancelledDuring exec recipe host then (none, status)
    else
      let step := RunFilter exec status recipe host
      let tail := collectExcluded exec step.2 rest host
      (match tail.1, step.1 with
        | none, _ => none
        | some errs, none => some errs
        | some errs, some err => some (err :: errs),
       tail.2)

/-- Modelled from the spec: `RecipeFilterRunner.ConfirmCompatibleRecipes`
(the recipe-set contract of section 4.4 and the propagation rule of section
7): a cancelled pass returns the single cancellation error; otherwise, if
the collection of excluded recipes is non-empty a single aggregated error is
returned, and no error only if every recipe was `Compatible`. -/
def ConfirmCompatibleRecipes (exec : GoString → HostSnapshot → ExecutionResult)
    (status : InstallStatus) (recipes : List OpenInstallationRecipe) (host : HostSnapshot) :
    Option AggregateError × InstallStatus :=
  let pass := collectExcluded exec status recipes host
  (match pass.1 with
    | none => some .cancelled
    | some errs => if errs.isEmpty then none else some (.excluded errs),
   pass.2)

/-- The recipes that the error of a filter run reports: none when there is
no error, and none in the cancellation error. -/
def reported : Option AggregateError → List FilterError
  | none => []
  | some (.excluded entries) => entries
  | some .cancelled => []

/-- The recipe is classified as something other than `Compatible`. -/
def nonCompatible (exec : GoString → HostSnapshot → ExecutionResult) (host : HostSnapshot)
    (recipe : OpenInstallationRecipe) : Bool :=
  decide (evaluate exec recipe host ≠ .Compatible)

/-- A stand-in for the external shell that understands only `exit N`, the
commands the tests use; anything else fails to run. -/
def exitShell (command : GoString) (_host : HostSnapshot) : ExecutionResult :=
  match command with
  | 'e' :: 'x' :: 'i' :: 't' :: ' ' :: digits =>
    if strconv.isNumeral digits then .exited (strconv.decimalValue digits) else .failed
  | _ => .failed

/-- The recipe of the tests `ShouldFailPreInstallWithDetected` and
`ShouldFailPreInstallWithUnsupported`, with the given validation command. -/
def testRecipe (command : GoString) : OpenInstallationRecipe :=
  { Name := "test-recipe".toList
    DisplayName := []
    ProcessMatch := ["apache2".toList]
    PreInstall := ⟨command⟩ }

/-- The manifest of those tests: one discovered process, `apache2`. -/
def testManifest : HostSnapshot :=
  { OS := []
    PlatformVersion := []
    DiscoveredProcesses := [⟨"apache2".toList, "apache2".toList, 1234⟩] }

/-- The install status of those tests: one fresh mock reporter. -/
def testStatus : InstallStatus := ⟨[⟨0, 0⟩]⟩

/-- A stand-in for the external shell under a context that is cancelled
while the command `sleep` is in flight; every other command runs as in
`exitShell`. -/
def cancellingShell (command : GoString) (host : HostSnapshot) : ExecutionResult :=
  if command = "sleep".toList then .cancelled else exitShell command host

/-- A recipe like `testRecipe` under another name. -/
def namedRecipe (name command : GoString) : OpenInstallationRecipe :=
  { testRecipe command with Name := name }

end recipes

open discovery strconv strings recipes

/-! ## `strings.Split` -/

theorem Split_ne_nil (s : GoString) (sep : Char) : Split s sep ≠ [] := by
  induction s with
  | nil => simp [Split]
  | cons c cs ih =>
    unfold Split
    split
    · simp
    · split <;> simp

theorem Split_of_not_mem (s : GoString) (sep : Char) (h : sep ∉ s) : Split s sep = [s] := by
  induction s with
  | nil => simp [Split]
  | cons c cs ih =>
    have hc : ¬ c = sep := fun e => h (by simp [e])
    have hcs : sep ∉ cs := fun e => h (by simp [e])
    rw [Split, if_neg hc, ih hcs]

theorem Split_append_sep (a rest : GoString) (sep : Char) (h : sep ∉ a) :
    Split (a ++ sep :: rest) sep = a :: Split rest sep := by
  induction a with
  | nil => simp [Split]
  | cons c cs ih =>
    have hc : ¬ c = sep := fun e => h (by simp [e])
    have hcs : sep ∉ cs := fun e => h (by simp [e])
    rw [List.cons_append, Split, if_neg hc, ih hcs]

/-- Joining the pieces with the separator gives the string back. -/
theorem Split_intercalate (s : GoString) (sep : Char) :
    [sep].intercalate (Split s sep) = s := by
  induction s with
  | nil => simp [Split, List.intercalate]
  | cons c cs ih =>
    unfold Split
    split
    · rename_i hc
      cases hsp : Split cs sep with
      | nil => exact absurd hsp (Split_ne_nil cs sep)
      | cons p r =>
        rw [hsp] at ih
        simp [List.intercalate, List.intersperse] at ih ⊢
        simp [hc, ih]
    · cases hsp : Split cs sep with
      | nil => exact absurd hsp (Split_ne_nil cs sep)
      | cons p r =>
        rw [hsp] at ih
        cases r with
        | nil => simpa [List.intercalate, List.intersperse] using ih
        | cons q r => simpa [List.intercalate, List.intersperse] using ih

/-- No piece contains the separator. -/
theorem Split_not_mem (s : GoString) (sep : Char) :
    ∀ piece ∈ Split s sep, sep ∉ piece := by
  induction s with
  | nil => simp [Split]
  | cons c cs ih =>
    unfold Split
    split
    · intro piece hp
      rcases List.mem_cons.1 hp with rfl | hp
      · simp
      · exact ih piece hp
    · rename_i hc
      cases hsp : Split cs sep with
      | nil => exact absurd hsp (Split_ne_nil cs sep)
      | cons p r =>
        rw [hsp] at ih
        intro piece hp
        rcases List.mem_cons.1 hp with rfl | hp
        · intro hm
          rcases List.mem_cons.1 hm with e | hm
          · exact hc e.symm
          · exact ih p (by simp) hm
        · exact ih piece (by simp [hp])

/-! ## The validator in terms of the components -/

theorem Execute_windows (IntSize : Nat) (v : GoString) :
    Execute IntSize ⟨"windows".toList, v⟩ =
      match Split v '.' with
      | [] => .ok windowsNoVersionMessage
      | [a] =>
        match Atoi IntSize a with
        | (major, none) => .ok (ensureMinimumVersion major 0)
        | (_, some _) => .ok windowsNoVersionMessage
      | a :: b :: _ =>
        match Atoi IntSize a with
        | (major, none) =>
          match Atoi IntSize b with
          | (minor, none) => .ok (ensureMinimumVersion major minor)
          | (_, some _) => .ok windowsNoVersionMessage
        | (_, some _) => .ok windowsNoVersionMessage := by
  unfold Execute
  simp only [ne_eq, not_true_eq_false, if_false]
  rcases hsp : Split v '.' with _ | ⟨a, _ | ⟨b, r⟩⟩ <;> simp [index]

theorem messages_distinct :
    windowsVersionNoLongerSupported ≠ "".toList ∧
    windowsNoVersionMessage ≠ "".toList ∧
    windowsNoVersionMessage ≠ windowsVersionNoLongerSupported := by
  decide

/-! ## The version rule -/

/-- C1: for OS "windows", when the first dot-delimited component parses as
`major` and the second one, if there is one, parses as `minor` (taken as 0
when the string has a single component), `Execute` returns the unsupported
message whenever `major < 6` or `major = 6` and `minor = 0`, and the empty
string whenever `major > 6` or `major = 6` and `minor > 0`. -/
theorem Execute_version_rule (IntSize : Nat) (v a : GoString) (major minor : Int)
    (hfirst : component v 0 = some a)
    (hmajor : Atoi IntSize a = (major, none))
    (hminor : (component v 1 = none ∧ minor = 0) ∨
      (∃ b, component v 1 = some b ∧ Atoi IntSize b = (minor, none))) :
    ((major < 6 ∨ (major = 6 ∧ minor = 0)) →
      Execute IntSize ⟨"windows".toList, v⟩ = .ok windowsVersionNoLongerSupported) ∧
    ((major > 6 ∨ (major = 6 ∧ minor > 0)) →
      Execute IntSize ⟨"windows".toList, v⟩ = .ok "".toList) := by
  have hrule : Execute IntSize ⟨"windows".toList, v⟩ = .ok (ensureMinimumVersion major minor) := by
    rw [Execute_windows]
    unfold component at hfirst hminor
    rcases hsp : Split v '.' with _ | ⟨a0, _ | ⟨b0, r⟩⟩
    · simp [hsp] at hfirst
    · simp only [hsp, List.getElem?_cons_zero, Option.some.injEq] at hfirst
      subst hfirst
      rcases hminor with ⟨_, h0⟩ | ⟨b, hb, _⟩
      · simp [hmajor, h0]
      · simp [hsp] at hb
    · simp only [hsp, List.getElem?_cons_zero, Option.some.injEq] at hfirst
      subst hfirst
      rcases hminor with ⟨hn, _⟩ | ⟨b, hb, hbv⟩
      · simp [hsp] at hn
      · simp only [hsp, List.getElem?_cons_succ, List.getElem?_cons_zero,
          Option.some.injEq] at hb
        subst hb
        simp [hmajor, hbv]
  rw [hrule]
  unfold ensureMinimumVersion
  constructor
  · rintro (h | ⟨h6, h0⟩)
    · simp [h]
    · simp [h6, h0]
  · rintro (h | ⟨h6, h0⟩)
    · have h1 : ¬ major < 6 := by omega
      have h2 : ¬ (major = 6 ∧ minor = 0) := by omega
      simp [h1, h2]
    · have h1 : ¬ major < 6 := by omega
      have h2 : ¬ (major = 6 ∧ minor = 0) := by omega
      simp [h1, h2]

/-- Witness for C1: "6.0" is unsupported, "6.1" and "10.0" are compatible. -/
theorem Execute_version_rule_witness :
    Execute 64 ⟨"windows".toList, "6.0".toList⟩ = .ok windowsVersionNoLongerSupported ∧
    Execute 64 ⟨"windows".toList, "6.1".toList⟩ = .ok "".toList ∧
    Execute 64 ⟨"windows".toList, "10.0".toList⟩ = .ok "".toList :=
  ⟨(Execute_version_rule 64 "6.0".toList "6".toList 6 0 (by decide) (by decide)
      (Or.inr ⟨"0".toList, by decide, by decide⟩)).1 (by decide),
   (Execute_version_rule 64 "6.1".toList "6".toList 6 1 (by decide) (by decide)
      (Or.inr ⟨"1".toList, by decide, by decide⟩)).2 (by decide),
   (Execute_version_rule 64 "10.0".toList "10".toList 10 0 (by decide) (by decide)
      (Or.inr ⟨"0".toList, by decide, by decide⟩)).2 (by decide)⟩

/-- C2: for all integers `major` and `minor`, negative ones included,
`ensureMinimumVersion` returns the unsupported message if and only if
`major < 6` or `major = 6` and `minor = 0`, and the empty string otherwise. -/
theorem ensureMinimumVersion_iff (major minor : Int) :
    (ensureMinimumVersion major minor = windowsVersionNoLongerSupported ↔
      (major < 6 ∨ (major = 6 ∧ minor = 0))) ∧
    (¬ (major < 6 ∨ (major = 6 ∧ minor = 0)) →
      ensureMinimumVersion major minor = "".toList) := by
  unfold ensureMinimumVersion
  by_cases h1 : major < 6
  · simp [h1]
  · by_cases h2 : major = 6 ∧ minor = 0
    · simp [h2]
    · have hne : ¬ ("".toList = windowsVersionNoLongerSupported) := by decide
      simp only [h1, h2, if_false, false_or, not_false_eq_true, true_implies, and_true]
      exact ⟨fun h => absurd h hne, fun h => absurd h (by simp)⟩

/-- C3: when the OS field is anything other than exactly "windows",
`Execute` returns the empty string for every platform-version string. -/
theorem Execute_other_os (IntSize : Nat) (m : DiscoveryManifest)
    (hos : m.OS ≠ "windows".toList) :
    Execute IntSize m = .ok "".toList := by
  unfold Execute
  rw [if_pos hos]

/-- Witness for C3: "Windows", "" and "linux" are not "windows". -/
theorem Execute_other_os_witness :
    Execute 64 ⟨"Windows".toList, "5.1".toList⟩ = .ok "".toList ∧
    Execute 64 ⟨"".toList, "not a version".toList⟩ = .ok "".toList ∧
    Execute 32 ⟨"linux".toList, "".toList⟩ = .ok "".toList :=
  ⟨Execute_other_os 64 ⟨"Windows".toList, "5.1".toList⟩ (by decide),
   Execute_other_os 64 ⟨"".toList, "not a version".toList⟩ (by decide),
   Execute_other_os 32 ⟨"linux".toList, "".toList⟩ (by decide)⟩

/-- C4: `Execute` is total: for every OS string and every platform-version
string it returns a value (no index is out of range), and the value is the
empty string, the unsupported message or the not-identified message. -/
theorem Execute_total (IntSize : Nat) (m : DiscoveryManifest) :
    ∃ s, Execute IntSize m = .ok s ∧
      (s = "".toList ∨ s = windowsVersionNoLongerSupported ∨ s = windowsNoVersionMessage) := by
  have hens : ∀ major minor : Int,
      ensureMinimumVersion major minor = "".toList ∨
      ensureMinimumVersion major minor = windowsVersionNoLongerSupported ∨
      ensureMinimumVersion major minor = windowsNoVersionMessage := by
    intro major minor
    unfold ensureMinimumVersion
    split
    · exact Or.inr (Or.inl rfl)
    · split
      · exact Or.inr (Or.inl rfl)
      · exact Or.inl rfl
  obtain ⟨os, v⟩ := m
  by_cases hos : os = "windows".toList
  · subst hos
    rw [Execute_windows]
    rcases hsp : Split v '.' with _ | ⟨a, _ | ⟨b, r⟩⟩
    · exact ⟨_, rfl, Or.inr (Or.inr rfl)⟩
    · rcases ha : Atoi IntSize a with ⟨major, _ | e⟩
      · exact ⟨ensureMinimumVersion major 0, by simp [ha], hens major 0⟩
      · exact ⟨windowsNoVersionMessage, by simp [ha], Or.inr (Or.inr rfl)⟩
    · rcases ha : Atoi IntSize a with ⟨major, _ | e⟩
      · rcases hb : Atoi IntSize b with ⟨minor, _ | e⟩
        · exact ⟨ensureMinimumVersion major minor, by simp [ha, hb], hens major minor⟩
        · exact ⟨windowsNoVersionMessage, by simp [ha, hb], Or.inr (Or.inr rfl)⟩
      · exact ⟨windowsNoVersionMessage, by simp [ha], Or.inr (Or.inr rfl)⟩
  · exact ⟨_, Execute_other_os IntSize ⟨os, v⟩ hos, Or.inl rfl⟩

/-! ## Malformed version strings -/

theorem Atoi_nil (IntSize : Nat) : (Atoi IntSize []).2 = some NumError.ErrSyntax := rfl

/-- C5: for OS "windows", the empty version string and every version string
whose first dot-delimited component does not parse make `Execute` return the
not-identified message, whatever the remaining components are. -/
theorem Execute_major_unparsed (IntSize : Nat) (v : GoString)
    (hbad : v = [] ∨ ∃ a, component v 0 = some a ∧ (Atoi IntSize a).2 ≠ none) :
    Execute IntSize ⟨"windows".toList, v⟩ = .ok windowsNoVersionMessage := by
  have hmain : ∀ a, component v 0 = some a → (Atoi IntSize a).2 ≠ none →
      Execute IntSize ⟨"windows".toList, v⟩ = .ok windowsNoVersionMessage := by
    intro a hfirst herr
    rw [Execute_windows]
    unfold component at hfirst
    rcases hsp : Split v '.' with _ | ⟨a0, _ | ⟨b0, r⟩⟩
    · rfl
    · simp only [hsp, List.getElem?_cons_zero, Option.some.injEq] at hfirst
      subst hfirst
      rcases ha : Atoi IntSize a0 with ⟨major, _ | e⟩
      · simp [ha] at herr
      · simp [ha]
    · simp only [hsp, List.getElem?_cons_zero, Option.some.injEq] at hfirst
      subst hfirst
      rcases ha : Atoi IntSize a0 with ⟨major, _ | e⟩
      · simp [ha] at herr
      · simp [ha]
  rcases hbad with rfl | ⟨a, hfirst, herr⟩
  · exact hmain [] rfl (by rw [Atoi_nil]; simp)
  · exact hmain a hfirst herr

/-- Witness for C5: the empty string, letters, whitespace, an empty first
component and a leading dot. -/
theorem Execute_major_unparsed_witness :
    Execute 64 ⟨"windows".toList, "".toList⟩ = .ok windowsNoVersionMessage ∧
    Execute 64 ⟨"windows".toList, "abc".toList⟩ = .ok windowsNoVersionMessage ∧
    Execute 64 ⟨"windows".toList, " 6.1".toList⟩ = .ok windowsNoVersionMessage ∧
    Execute 64 ⟨"windows".toList, ".6.1".toList⟩ = .ok windowsNoVersionMessage ∧
    Execute 32 ⟨"windows".toList, "six.1.0".toList⟩ = .ok windowsNoVersionMessage :=
  ⟨Execute_major_unparsed 64 "".toList (Or.inl rfl),
   Execute_major_unparsed 64 "abc".toList (Or.inr ⟨"abc".toList, by decide, by decide⟩),
   Execute_major_unparsed 64 " 6.1".toList (Or.inr ⟨" 6".toList, by decide, by decide⟩),
   Execute_major_unparsed 64 ".6.1".toList (Or.inr ⟨"".toList, by decide, by decide⟩),
   Execute_major_unparsed 32 "six.1.0".toList (Or.inr ⟨"six".toList, by decide, by decide⟩)⟩

/-- C6: for OS "windows", a version string with a second dot-delimited
component that does not parse makes `Execute` return the not-identified
message, also when the major component parses: the minor is not defaulted to
0, and the result is neither the unsupported message nor the empty string. -/
theorem Execute_minor_unparsed (IntSize : Nat) (v b : GoString)
    (hsecond : component v 1 = some b) (herr : (Atoi IntSize b).2 ≠ none) :
    Execute IntSize ⟨"windows".toList, v⟩ = .ok windowsNoVersionMessage ∧
    Execute IntSize ⟨"windows".toList, v⟩ ≠ .ok windowsVersionNoLongerSupported ∧
    Execute IntSize ⟨"windows".toList, v⟩ ≠ .ok "".toList := by
  have hres : Execute IntSize ⟨"windows".toList, v⟩ = .ok windowsNoVersionMessage := by
    rw [Execute_windows]
    unfold component at hsecond
    rcases hsp : Split v '.' with _ | ⟨a0, _ | ⟨b0, r⟩⟩
    · rfl
    · simp [hsp] at hsecond
    · simp only [hsp, List.getElem?_cons_succ, List.getElem?_cons_zero,
        Option.some.injEq] at hsecond
      subst hsecond
      rcases ha : Atoi IntSize a0 with ⟨major, _ | e⟩
      · rcases hb : Atoi IntSize b0 with ⟨minor, _ | e⟩
        · simp [hb] at herr
        · simp [ha, hb]
      · simp [ha]
  rw [hres]
  exact ⟨rfl, by decide, by decide⟩

/-- Witness for C6: "6.x", "10." and "5.beta". -/
theorem Execute_minor_unparsed_witness :
    Execute 64 ⟨"windows".toList, "6.x".toList⟩ = .ok windowsNoVersionMessage ∧
    Execute 64 ⟨"windows".toList, "10.".toList⟩ = .ok windowsNoVersionMessage ∧
    Execute 64 ⟨"windows".toList, "5.beta".toList⟩ = .ok windowsNoVersionMessage :=
  ⟨(Execute_minor_unparsed 64 "6.x".toList "x".toList (by decide) (by decide)).1,
   (Execute_minor_unparsed 64 "10.".toList "".toList (by decide) (by decide)).1,
   (Execute_minor_unparsed 64 "5.beta".toList "beta".toList (by decide) (by decide)).1⟩

/-! ## A lone major component -/

theorem Atoi_zero (IntSize : Nat) (hI : IntSize = 32 ∨ IntSize = 64) :
    Atoi IntSize ['0'] = (0, none) := by
  rcases hI with rfl | rfl <;> decide

/-- C7: a version string with only a major component is treated as minor 0:
for OS "windows" and every string `n` without a dot, `Execute` on `n` returns
what it returns on `n` followed by ".0". -/
theorem Execute_major_only (IntSize : Nat) (hI : IntSize = 32 ∨ IntSize = 64)
    (n : GoString) (hdot : '.' ∉ n) :
    Execute IntSize ⟨"windows".toList, n⟩ =
      Execute IntSize ⟨"windows".toList, n ++ ".0".toList⟩ := by
  have h1 : Split n '.' = [n] := Split_of_not_mem n '.' hdot
  have h2 : Split (n ++ ".0".toList) '.' = [n, "0".toList] := by
    have h := Split_append_sep n "0".toList '.' hdot
    have h0 : Split "0".toList '.' = ["0".toList] := by decide
    rw [h0] at h
    exact h
  rw [Execute_windows, Execute_windows, h1, h2]
  rcases ha : Atoi IntSize n with ⟨major, _ | e⟩
  · simp [ha, Atoi_zero IntSize hI]
  · simp [ha]

/-- Witness for C7: "1" is treated as "1.0" and "6" as "6.0"; both are
unsupported. -/
theorem Execute_major_only_witness :
    Execute 64 ⟨"windows".toList, "1".toList⟩ = Execute 64 ⟨"windows".toList, "1.0".toList⟩ ∧
    Execute 64 ⟨"windows".toList, "6".toList⟩ = Execute 64 ⟨"windows".toList, "6.0".toList⟩ ∧
    Execute 64 ⟨"windows".toList, "1".toList⟩ = .ok windowsVersionNoLongerSupported ∧
    Execute 64 ⟨"windows".toList, "6".toList⟩ = .ok windowsVersionNoLongerSupported :=
  ⟨Execute_major_only 64 (Or.inr rfl) "1".toList (by decide),
   Execute_major_only 64 (Or.inr rfl) "6".toList (by decide),
   by decide, by decide⟩

/-! ## `strconv.Atoi` on digit strings -/

theorem digitValue_of_isDigit (c : Char) (h : isDigit c = true) :
    digitValue c = some (c.toNat - 48) ∧ c.toNat - 48 < 10 := by
  simp only [isDigit, decide_eq_true_eq] at h
  unfold digitValue
  rw [if_pos h]
  exact ⟨rfl, by omega⟩

theorem le_decimalFrom (s : GoString) : ∀ n, n ≤ decimalFrom n s := by
  induction s with
  | nil => intro n; simp [decimalFrom]
  | cons c cs ih =>
    intro n
    have h := ih (n * 10 + (c.toNat - 48))
    simp only [decimalFrom, List.foldl_cons] at h ⊢
    omega

/-- On digits the loop of `ParseUint` computes the decimal value, provided
the value does not exceed `maxVal`. -/
theorem ParseUintLoop_digits (maxVal : Nat) (hmax : maxVal < 2 ^ 64) (s : GoString)
    (hs : s.all isDigit = true) :
    ∀ n, decimalFrom n s ≤ maxVal → ParseUintLoop maxVal n s = (decimalFrom n s, none) := by
  induction s with
  | nil => intro n _; simp [decimalFrom, ParseUintLoop]
  | cons c cs ih =>
    intro n hle
    simp only [List.all_cons, Bool.and_eq_true] at hs
    obtain ⟨hd, hd10⟩ := digitValue_of_isDigit c hs.1
    have hge := le_decimalFrom cs (n * 10 + (c.toNat - 48))
    have hstep : decimalFrom n (c :: cs) = decimalFrom (n * 10 + (c.toNat - 48)) cs := by
      simp [decimalFrom]
    rw [hstep] at hle ⊢
    have hrec := ih hs.2 (n * 10 + (c.toNat - 48)) hle
    unfold ParseUintLoop
    simp only [hd]
    have h1 : ¬ (c.toNat - 48 ≥ 10) := by omega
    have h2 : ¬ (n ≥ maxUint64 / 10 + 1) := by
      simp only [maxUint64]
      norm_num at hmax ⊢
      omega
    have h3 : (n * 10) % 2 ^ 64 = n * 10 := by
      apply Nat.mod_eq_of_lt
      norm_num at hmax ⊢
      omega
    have h4 : (n * 10 + (c.toNat - 48)) % 2 ^ 64 = n * 10 + (c.toNat - 48) := by
      apply Nat.mod_eq_of_lt
      norm_num at hmax ⊢
      omega
    rw [if_neg h1, if_neg h2]
    simp only [h3, h4]
    have h5 : ¬ (n * 10 + (c.toNat - 48) < n * 10 ∨ n * 10 + (c.toNat - 48) > maxVal) := by
      omega
    rw [if_neg h5]
    exact hrec

theorem ParseUint_numeral (IntSize : Nat) (hI : IntSize = 32 ∨ IntSize = 64) (s : GoString)
    (hs : isNumeral s = true) (hle : decimalValue s < 2 ^ IntSize) :
    ParseUint IntSize s = (decimalValue s, none) := by
  simp only [isNumeral, Bool.and_eq_true, Bool.not_eq_true', List.isEmpty_eq_false] at hs
  unfold ParseUint
  rw [if_neg hs.1]
  have hmax : (2 ^ IntSize % 2 ^ 64 + 2 ^ 64 - 1) % 2 ^ 64 = 2 ^ IntSize - 1 := by
    rcases hI with rfl | rfl <;> norm_num
  rw [hmax]
  apply ParseUintLoop_digits _ _ s hs.2 0
  · show decimalValue s ≤ 2 ^ IntSize - 1
    omega
  · rcases hI with rfl | rfl <;> norm_num

theorem wrapInt_of_range (bits : Nat) (hb : bits = 32 ∨ bits = 64) (x : Int)
    (hlo : -(2 ^ (bits - 1) : Int) ≤ x) (hhi : x < 2 ^ (bits - 1)) :
    wrapInt bits x = x := by
  unfold wrapInt
  rcases hb with rfl | rfl
  · norm_num at hlo hhi ⊢
    omega
  · norm_num at hlo hhi ⊢
    omega

theorem pow_pred_le (IntSize : Nat) (hI : IntSize = 32 ∨ IntSize = 64) :
    2 ^ (IntSize - 1) ≤ 2 ^ 63 ∧ 2 * 2 ^ (IntSize - 1) = 2 ^ IntSize := by
  rcases hI with rfl | rfl <;> norm_num

theorem isDigit_ne_sign (c : Char) (h : isDigit c = true) : c ≠ '+' ∧ c ≠ '-' ∧ c ≠ '.' := by
  refine ⟨?_, ?_, ?_⟩ <;> rintro rfl <;> exact absurd h (by decide)

/-- `ParseInt` on an optionally signed numeral whose magnitude fits. -/
theorem ParseInt_signed (IntSize : Nat) (hI : IntSize = 32 ∨ IntSize = 64) (sg : Sign)
    (s : GoString) (hs : isNumeral s = true) (hlt : decimalValue s < 2 ^ (IntSize - 1)) :
    ParseInt IntSize (sg.chars ++ s) = (sg.apply (decimalValue s), none) := by
  obtain ⟨h63, h2⟩ := pow_pred_le IntSize hI
  have hu : ParseUint IntSize s = (decimalValue s, none) :=
    ParseUint_numeral IntSize hI s hs (by omega)
  have hw : wrapInt 64 (decimalValue s : Int) = decimalValue s := by
    apply wrapInt_of_range 64 (Or.inr rfl)
    · have : (0 : Int) ≤ decimalValue s := Int.ofNat_nonneg _
      norm_num
      omega
    · norm_num at h63 ⊢
      omega
  have hwn : wrapInt 64 (-(decimalValue s : Int)) = -(decimalValue s : Int) := by
    apply wrapInt_of_range 64 (Or.inr rfl)
    · norm_num at h63 ⊢
      omega
    · have : (0 : Int) ≤ decimalValue s := Int.ofNat_nonneg _
      norm_num
      omega
  have hc1 : ¬ (decimalValue s ≥ 2 ^ (IntSize - 1)) := by omega
  have hc2 : ¬ (decimalValue s > 2 ^ (IntSize - 1)) := by omega
  cases sg with
  | absent =>
    cases s with
    | nil => simp [isNumeral] at hs
    | cons c cs =>
      have hc : isDigit c = true := by
        simp only [isNumeral, List.all_cons, Bool.and_eq_true] at hs
        exact hs.2.1
      obtain ⟨hp, hm, _⟩ := isDigit_ne_sign c hc
      simp only [Sign.chars, List.nil_append, ParseInt, if_neg hp, if_neg hm, hu, Sign.apply]
      simp [hm, hc1, hw]
  | plus =>
    simp only [Sign.chars, List.singleton_append, ParseInt, if_true, hu, Sign.apply]
    simp [hc1, hw]
  | minus =>
    have hpm : ¬ ('-' = '+') := by decide
    simp only [Sign.chars, List.singleton_append, ParseInt, if_neg hpm, if_true, hu, Sign.apply]
    simp [hc2, hw, hwn]

/-- `Atoi` on an optionally signed numeral whose magnitude fits Go's `int`. -/
theorem Atoi_signed (IntSize : Nat) (hI : IntSize = 32 ∨ IntSize = 64) (sg : Sign)
    (s : GoString) (hs : isNumeral s = true) (hlt : decimalValue s < 2 ^ (IntSize - 1)) :
    Atoi IntSize (sg.chars ++ s) = (sg.apply (decimalValue s), none) := by
  unfold Atoi
  rw [ParseInt_signed IntSize hI sg s hs hlt]
  have hcast : ((2 ^ (IntSize - 1) : Nat) : Int) = 2 ^ (IntSize - 1) := by push_cast; rfl
  have hlt' : (decimalValue s : Int) < 2 ^ (IntSize - 1) := by
    rw [← hcast]
    exact_mod_cast hlt
  have hpos : (0 : Int) ≤ decimalValue s := Int.ofNat_nonneg _
  have hw : wrapInt IntSize (sg.apply (decimalValue s)) = sg.apply (decimalValue s) := by
    apply wrapInt_of_range IntSize hI
    · cases sg <;> simp only [Sign.apply] <;> omega
    · cases sg <;> simp only [Sign.apply] <;> omega
  simp [hw]

/-- A signed numeral contains no dot. -/
theorem dot_not_mem_signed (sg : Sign) (s : GoString) (hs : isNumeral s = true) :
    '.' ∉ sg.chars ++ s := by
  simp only [isNumeral, Bool.and_eq_true, List.all_eq_true] at hs
  intro hmem
  rcases List.mem_append.1 hmem with h | h
  · cases sg <;> simp [Sign.chars] at h
  · exact (isDigit_ne_sign '.' (hs.2 '.' h)).2.2 rfl

theorem Execute_one_component (IntSize : Nat) (a : GoString) (major : Int)
    (ha : '.' ∉ a) (hmajor : Atoi IntSize a = (major, none)) :
    Execute IntSize ⟨"windows".toList, a⟩ = .ok (ensureMinimumVersion major 0) := by
  rw [Execute_windows, Split_of_not_mem a '.' ha]
  simp [hmajor]

theorem Execute_two_components (IntSize : Nat) (a b : GoString) (major minor : Int)
    (ha : '.' ∉ a) (hb : '.' ∉ b)
    (hmajor : Atoi IntSize a = (major, none)) (hminor : Atoi IntSize b = (minor, none)) :
    Execute IntSize ⟨"windows".toList, a ++ '.' :: b⟩ =
      .ok (ensureMinimumVersion major minor) := by
  rw [Execute_windows, Split_append_sep a b '.' ha, Split_of_not_mem b '.' hb]
  simp [hmajor, hminor]

theorem ensureMinimumVersion_ne_noVersion (major minor : Int) :
    ensureMinimumVersion major minor ≠ windowsNoVersionMessage := by
  unfold ensureMinimumVersion
  split
  · decide
  · split <;> decide

/-! ## Signed and out-of-range components -/

/-- C8, as stated, fails: "-1", "+7.1" and "6.-1" carry a sign in the major
or minor component, and `Execute` does not return the not-identified message
on any of them. -/
theorem Execute_signed_counterexample :
    Execute 64 ⟨"windows".toList, "-1".toList⟩ = .ok windowsVersionNoLongerSupported ∧
    Execute 64 ⟨"windows".toList, "+7.1".toList⟩ = .ok "".toList ∧
    Execute 64 ⟨"windows".toList, "6.-1".toList⟩ = .ok "".toList ∧
    Execute 64 ⟨"windows".toList, "-1".toList⟩ ≠ .ok windowsNoVersionMessage ∧
    Execute 64 ⟨"windows".toList, "+7.1".toList⟩ ≠ .ok windowsNoVersionMessage ∧
    Execute 64 ⟨"windows".toList, "6.-1".toList⟩ ≠ .ok windowsNoVersionMessage := by
  decide

/-- C8, amended: `Execute` parses the components with `strconv.Atoi`, as
optionally signed decimal integers.  For OS "windows", when the major and the
minor component are each an optional `+` or `-` followed by a non-empty run
of ASCII digits whose value fits Go's `int`, the version is a parsed numeric
version: the result is `ensureMinimumVersion` of the signed values (minor 0
for a lone major), never the not-identified message. -/
theorem Execute_signed_components (IntSize : Nat) (hI : IntSize = 32 ∨ IntSize = 64)
    (sM sm : Sign) (M m : GoString)
    (hM : isNumeral M = true) (hm : isNumeral m = true)
    (hMfit : decimalValue M < 2 ^ (IntSize - 1)) (hmfit : decimalValue m < 2 ^ (IntSize - 1)) :
    Execute IntSize ⟨"windows".toList, sM.chars ++ M⟩ =
      .ok (ensureMinimumVersion (sM.apply (decimalValue M)) 0) ∧
    Execute IntSize ⟨"windows".toList, (sM.chars ++ M) ++ '.' :: (sm.chars ++ m)⟩ =
      .ok (ensureMinimumVersion (sM.apply (decimalValue M)) (sm.apply (decimalValue m))) ∧
    Execute IntSize ⟨"windows".toList, sM.chars ++ M⟩ ≠ .ok windowsNoVersionMessage ∧
    Execute IntSize ⟨"windows".toList, (sM.chars ++ M) ++ '.' :: (sm.chars ++ m)⟩ ≠
      .ok windowsNoVersionMessage := by
  have h1 := Execute_one_component IntSize (sM.chars ++ M) _ (dot_not_mem_signed sM M hM)
    (Atoi_signed IntSize hI sM M hM hMfit)
  have h2 := Execute_two_components IntSize (sM.chars ++ M) (sm.chars ++ m) _ _
    (dot_not_mem_signed sM M hM) (dot_not_mem_signed sm m hm)
    (Atoi_signed IntSize hI sM M hM hMfit) (Atoi_signed IntSize hI sm m hm hmfit)
  refine ⟨h1, h2, ?_, ?_⟩
  · rw [h1]
    intro h
    exact ensureMinimumVersion_ne_noVersion _ _ (Except.ok.inj h)
  · rw [h2]
    intro h
    exact ensureMinimumVersion_ne_noVersion _ _ (Except.ok.inj h)

/-- Witness for C8, amended: "-1" is major -1 and unsupported, "+7.1" is 7.1
and "6.-1" is major 6 with minor -1, both compatible. -/
theorem Execute_signed_components_witness :
    Execute 64 ⟨"windows".toList, "-1".toList⟩ = .ok windowsVersionNoLongerSupported ∧
    Execute 64 ⟨"windows".toList, "+7.1".toList⟩ = .ok "".toList ∧
    Execute 64 ⟨"windows".toList, "6.-1".toList⟩ = .ok "".toList :=
  ⟨(Execute_signed_components 64 (Or.inr rfl) .minus .absent "1".toList "0".toList
      (by decide) (by decide) (by decide) (by decide)).1,
   (Execute_signed_components 64 (Or.inr rfl) .plus .absent "7".toList "1".toList
      (by decide) (by decide) (by decide) (by decide)).2.1,
   (Execute_signed_components 64 (Or.inr rfl) .absent .minus "6".toList "1".toList
      (by decide) (by decide) (by decide) (by decide)).2.1⟩

/-- C9, as stated, fails: in "9223372036854775808.0" both components are
non-empty digit strings and the major denotes 2^63 > 6, yet `Execute`
returns the not-identified message, not the empty one; likewise when the
minor is out of range. -/
theorem Execute_large_major_counterexample :
    isNumeral "9223372036854775808".toList = true ∧
    isNumeral "0".toList = true ∧
    6 < decimalValue "9223372036854775808".toList ∧
    Execute 64 ⟨"windows".toList, "9223372036854775808.0".toList⟩ =
      .ok windowsNoVersionMessage ∧
    Execute 64 ⟨"windows".toList, "9223372036854775808.0".toList⟩ ≠ .ok "".toList ∧
    Execute 32 ⟨"windows".toList, "9223372036854775808.0".toList⟩ ≠ .ok "".toList ∧
    Execute 64 ⟨"windows".toList, "7.9223372036854775808".toList⟩ ≠ .ok "".toList := by
  decide

/-- C9, amended: for OS "windows" and every version string "M.m" in which
`M` and `m` are non-empty strings of ASCII decimal digits whose values fit
Go's `int` (less than `2 ^ (IntSize - 1)`) and `M` denotes a number greater
than 6, `Execute` returns the empty (compatible) message. -/
theorem Execute_large_major (IntSize : Nat) (hI : IntSize = 32 ∨ IntSize = 64)
    (M m : GoString) (hM : isNumeral M = true) (hm : isNumeral m = true)
    (hgt : 6 < decimalValue M)
    (hMfit : decimalValue M < 2 ^ (IntSize - 1)) (hmfit : decimalValue m < 2 ^ (IntSize - 1)) :
    Execute IntSize ⟨"windows".toList, M ++ '.' :: m⟩ = .ok "".toList := by
  have hMa := Atoi_signed IntSize hI .absent M hM hMfit
  have hma := Atoi_signed IntSize hI .absent m hm hmfit
  have hMd := dot_not_mem_signed .absent M hM
  have hmd := dot_not_mem_signed .absent m hm
  simp only [Sign.chars, List.nil_append, Sign.apply] at hMa hma hMd hmd
  rw [Execute_two_components IntSize M m _ _ hMd hmd hMa hma]
  have h1 : ¬ ((decimalValue M : Int) < 6) := by omega
  have h2 : ¬ ((decimalValue M : Int) = 6 ∧ (decimalValue m : Int) = 0) := by omega
  unfold ensureMinimumVersion
  rw [if_neg h1, if_neg h2]

/-- Witness for C9, amended: "10.0", and the largest 64-bit and 32-bit
majors. -/
theorem Execute_large_major_witness :
    Execute 64 ⟨"windows".toList, "10.0".toList⟩ = .ok "".toList ∧
    Execute 64 ⟨"windows".toList, "9223372036854775807.9223372036854775807".toList⟩ =
      .ok "".toList ∧
    Execute 32 ⟨"windows".toList, "2147483647.0".toList⟩ = .ok "".toList :=
  ⟨Execute_large_major 64 (Or.inr rfl) "10".toList "0".toList
      (by decide) (by decide) (by decide) (by decide) (by decide),
   Execute_large_major 64 (Or.inr rfl) "9223372036854775807".toList
      "9223372036854775807".toList (by decide) (by decide) (by decide) (by decide) (by decide),
   Execute_large_major 32 (Or.inl rfl) "2147483647".toList "0".toList
      (by decide) (by decide) (by decide) (by decide) (by decide)⟩

/-! ## The recipe filter runner: exit-code classification -/

/-- C10: for every recipe whose process-match patterns are satisfied by the
host's discovered processes and whose validation command (a recipe that
declares one: the string is not empty) exits with `code`:
exit 0 gives no error and no notification; the sentinel 132 gives an error,
one "recipe detected" notification to every subscriber and no "recipe
unsupported" notification; any other non-zero code gives an error, one
"recipe unsupported" notification to every subscriber and no "recipe
detected" notification. -/
theorem RunFilter_exit_code (exec : GoString → HostSnapshot → ExecutionResult)
    (status : InstallStatus) (recipe : OpenInstallationRecipe) (host : HostSnapshot)
    (code : Int)
    (hmatch : processMatch recipe.ProcessMatch host.DiscoveredProcesses = true)
    (hcommand : recipe.PreInstall.RequireAtDiscovery ≠ [])
    (hexit : exec recipe.PreInstall.RequireAtDiscovery host = .exited code) :
    (code = 0 →
      (RunFilter exec status recipe host).1 = none ∧
      (RunFilter exec status recipe host).2 = status) ∧
    (code = 132 →
      (RunFilter exec status recipe host).1.isSome = true ∧
      (RunFilter exec status recipe host).2.statusSubscribers.map
          (fun r => (r.RecipeDetectedCallCount, r.RecipeUnsupportedCallCount)) =
        status.statusSubscribers.map
          (fun r => (r.RecipeDetectedCallCount + 1, r.RecipeUnsupportedCallCount))) ∧
    (code ≠ 0 ∧ code ≠ 132 →
      (RunFilter exec status recipe host).1.isSome = true ∧
      (RunFilter exec status recipe host).2.statusSubscribers.map
          (fun r => (r.RecipeDetectedCallCount, r.RecipeUnsupportedCallCount)) =
        status.statusSubscribers.map
          (fun r => (r.RecipeDetectedCallCount, r.RecipeUnsupportedCallCount + 1))) := by
  have hev : evaluate exec recipe host = classify (.exited code) := by
    unfold evaluate runValidation
    simp [hmatch, hcommand, hexit]
  unfold RunFilter
  simp only [hev]
  refine ⟨?_, ?_, ?_⟩
  · rintro rfl
    simp [classify, notify]
  · rintro rfl
    simp [classify, notify, detectedExitCode, InstallStatus.RecipeDetected, Function.comp_def]
  · rintro ⟨h0, h132⟩
    simp [classify, notify, detectedExitCode, h0, h132, InstallStatus.RecipeUnsupported,
      Function.comp_def]

/-- Witness for C10: the recipe of the tests, matched by the process
`apache2`, with the commands `exit 0`, `exit 132` and `exit 1`, and the
(detected, unsupported) counters of the one reporter afterwards. -/
theorem RunFilter_exit_code_witness :
    ((RunFilter exitShell testStatus (testRecipe "exit 0".toList) testManifest).1 = none ∧
      (RunFilter exitShell testStatus (testRecipe "exit 0".toList) testManifest).2 =
        testStatus) ∧
    ((RunFilter exitShell testStatus (testRecipe "exit 132".toList) testManifest).1.isSome
        = true ∧
      (RunFilter exitShell testStatus (testRecipe "exit 132".toList)
          testManifest).2.statusSubscribers.map
          (fun r => (r.RecipeDetectedCallCount, r.RecipeUnsupportedCallCount)) = [(1, 0)]) ∧
    ((RunFilter exitShell testStatus (testRecipe "exit 1".toList) testManifest).1.isSome
        = true ∧
      (RunFilter exitShell testStatus (testRecipe "exit 1".toList)
          testManifest).2.statusSubscribers.map
          (fun r => (r.RecipeDetectedCallCount, r.RecipeUnsupportedCallCount)) = [(0, 1)]) :=
  ⟨(RunFilter_exit_code exitShell testStatus (testRecipe "exit 0".toList) testManifest 0
      (by decide) (by decide) (by decide)).1 rfl,
   (RunFilter_exit_code exitShell testStatus (testRecipe "exit 132".toList) testManifest 132
      (by decide) (by decide) (by decide)).2.1 rfl,
   (RunFilter_exit_code exitShell testStatus (testRecipe "exit 1".toList) testManifest 1
      (by decide) (by decide) (by decide)).2.2 ⟨by decide, by decide⟩⟩

/-! ## Components after the second, and monotonicity -/

/-- C13: `Execute` looks only at the first two dot-delimited components: for
OS "windows", dot-free strings `a` and `b` and any string `rest`, `Execute`
on `a + "." + b + "." + rest` returns what it returns on `a + "." + b`. -/
theorem Execute_first_two_components (IntSize : Nat) (a b rest : GoString)
    (ha : '.' ∉ a) (hb : '.' ∉ b) :
    Execute IntSize ⟨"windows".toList, a ++ ".".toList ++ b ++ ".".toList ++ rest⟩ =
      Execute IntSize ⟨"windows".toList, a ++ ".".toList ++ b⟩ := by
  have hlong : a ++ ".".toList ++ b ++ ".".toList ++ rest = a ++ '.' :: (b ++ '.' :: rest) := by
    simp
  have hshort : a ++ ".".toList ++ b = a ++ '.' :: b := by simp
  have h1 : Split (a ++ '.' :: (b ++ '.' :: rest)) '.' = a :: b :: Split rest '.' := by
    rw [Split_append_sep a _ '.' ha, Split_append_sep b rest '.' hb]
  have h2 : Split (a ++ '.' :: b) '.' = [a, b] := by
    rw [Split_append_sep a b '.' ha, Split_of_not_mem b '.' hb]
  rw [hlong, hshort, Execute_windows, Execute_windows, h1, h2]

/-- Witness for C13: "6.1.garbage" is compatible like "6.1", and a malformed
tail does not rescue or spoil "5.1" or "x.1". -/
theorem Execute_first_two_components_witness :
    Execute 64 ⟨"windows".toList, "6.1.garbage".toList⟩ =
      Execute 64 ⟨"windows".toList, "6.1".toList⟩ ∧
    Execute 64 ⟨"windows".toList, "6.1.garbage".toList⟩ = .ok "".toList ∧
    Execute 64 ⟨"windows".toList, "5.1...-".toList⟩ =
      Execute 64 ⟨"windows".toList, "5.1".toList⟩ ∧
    Execute 32 ⟨"windows".toList, "x.1.2.3".toList⟩ =
      Execute 32 ⟨"windows".toList, "x.1".toList⟩ :=
  ⟨Execute_first_two_components 64 "6".toList "1".toList "garbage".toList
      (by decide) (by decide),
   by decide,
   Execute_first_two_components 64 "5".toList "1".toList "..-".toList (by decide) (by decide),
   Execute_first_two_components 32 "x".toList "1".toList "2.3".toList (by decide) (by decide)⟩

theorem ensureMinimumVersion_eq_empty_iff (major minor : Int) :
    ensureMinimumVersion major minor = "".toList ↔
      ¬ (major < 6) ∧ ¬ (major = 6 ∧ minor = 0) := by
  have hne : windowsVersionNoLongerSupported ≠ "".toList := by decide
  unfold ensureMinimumVersion
  by_cases h1 : major < 6
  · simp only [h1, if_true, not_true_eq_false, false_and, iff_false]
    exact hne
  · by_cases h2 : major = 6 ∧ minor = 0
    · simp only [h1, h2, if_false, and_self, if_true, not_true_eq_false, and_false, iff_false,
        not_false_eq_true]
      exact hne
    · simp [h1, h2]

/-- C14: compatibility is monotone in the version: for non-negative
`major`, `minor`, `major'`, `minor'` with `(major, minor)` at most
`(major', minor')` in lexicographic order, if `ensureMinimumVersion major
minor` is the empty string then so is `ensureMinimumVersion major' minor'`. -/
theorem ensureMinimumVersion_monotone (major minor major' minor' : Int)
    (_hmajor : 0 ≤ major) (hminor : 0 ≤ minor) (hmajor' : 0 ≤ major')
    (_hminor' : 0 ≤ minor')
    (hle : major < major' ∨ (major = major' ∧ minor ≤ minor'))
    (hok : ensureMinimumVersion major minor = "".toList) :
    ensureMinimumVersion major' minor' = "".toList := by
  rw [ensureMinimumVersion_eq_empty_iff] at hok ⊢
  omega

/-- Witness for C14: 6.1 is accepted, and so are the newer 6.2, 7.0 and
10.0. -/
theorem ensureMinimumVersion_monotone_witness :
    ensureMinimumVersion 6 2 = "".toList ∧
    ensureMinimumVersion 7 0 = "".toList ∧
    ensureMinimumVersion 10 0 = "".toList :=
  ⟨ensureMinimumVersion_monotone 6 1 6 2 (by decide) (by decide) (by decide) (by decide)
      (Or.inr ⟨rfl, by decide⟩) (by decide),
   ensureMinimumVersion_monotone 6 1 7 0 (by decide) (by decide) (by decide) (by decide)
      (Or.inl (by decide)) (by decide),
   ensureMinimumVersion_monotone 6 1 10 0 (by decide) (by decide) (by decide) (by decide)
      (Or.inl (by decide)) (by decide)⟩

/-! ## The recipe filter runner: aggregation over a recipe set -/

/-- When no validation is cancelled, the excluded recipes collected by the
pass are the non-compatible recipes in iteration order, whatever the install
status. -/
theorem collectExcluded_fst (exec : GoString → HostSnapshot → ExecutionResult)
    (host : HostSnapshot) (recipes : List OpenInstallationRecipe)
    (hrun : ∀ r ∈ recipes, cancelledDuring exec r host = false) :
    ∀ status : InstallStatus,
      (collectExcluded exec status recipes host).1 =
        some ((recipes.filter (nonCompatible exec host)).map
          (fun r => (⟨r.Name, evaluate exec r host⟩ : FilterError))) := by
  induction recipes with
  | nil => intro status; rfl
  | cons r rs ih =>
    intro status
    have hr : cancelledDuring exec r host = false := hrun r (List.mem_cons_self r rs)
    have hrs : ∀ q ∈ rs, cancelledDuring exec q host = false :=
      fun q hq => hrun q (List.mem_cons_of_mem r hq)
    by_cases hc : evaluate exec r host = .Compatible
    · simp [collectExcluded, RunFilter, nonCompatible, hc, hr, ih hrs]
    · simp [collectExcluded, RunFilter, nonCompatible, hc, hr, ih hrs]

/-- A pass in which the validation of some recipe is cancelled ends in the
single cancellation error. -/
theorem collectExcluded_cancelled (exec : GoString → HostSnapshot → ExecutionResult)
    (host : HostSnapshot) (recipes : List OpenInstallationRecipe)
    (hcancel : ∃ r ∈ recipes, cancelledDuring exec r host = true) :
    ∀ status : InstallStatus, (collectExcluded exec status recipes host).1 = none := by
  induction recipes with
  | nil => simp at hcancel
  | cons r rs ih =>
    intro status
    by_cases hr : cancelledDuring exec r host = true
    · simp [collectExcluded, hr]
    · have hrs : ∃ q ∈ rs, cancelledDuring exec q host = true := by
        obtain ⟨q, hq, hqc⟩ := hcancel
        rcases List.mem_cons.1 hq with rfl | hq
        · exact absurd hqc hr
        · exact ⟨q, hq, hqc⟩
      simp [collectExcluded, hr, ih hrs]

theorem reported_ConfirmCompatibleRecipes (exec : GoString → HostSnapshot → ExecutionResult)
    (status : InstallStatus) (recipes : List OpenInstallationRecipe) (host : HostSnapshot)
    (hrun : ∀ r ∈ recipes, cancelledDuring exec r host = false) :
    reported (ConfirmCompatibleRecipes exec status recipes host).1 =
      (recipes.filter (nonCompatible exec host)).map
        (fun r => (⟨r.Name, evaluate exec r host⟩ : FilterError)) := by
  unfold ConfirmCompatibleRecipes
  simp only [collectExcluded_fst exec host recipes hrun]
  cases h : (recipes.filter (nonCompatible exec host)).map
      (fun r => (⟨r.Name, evaluate exec r host⟩ : FilterError)) with
  | nil => simp [reported]
  | cons e es => simp [reported]

/-- C11, as stated, fails: of the two recipes `a` (exits 1) and `c` (its
validation is killed by the cancellation of the context) both are classified
non-compatible, so `K = 2`, yet `ConfirmCompatibleRecipes` returns the single
cancellation error, which enumerates no recipe; likewise for `c` alone. -/
theorem ConfirmCompatibleRecipes_cancelled_counterexample :
    evaluate cancellingShell (namedRecipe "a".toList "exit 1".toList) testManifest =
      .Unsupported ∧
    evaluate cancellingShell (namedRecipe "c".toList "sleep".toList) testManifest =
      .ValidationError ∧
    List.countP (nonCompatible cancellingShell testManifest)
      [namedRecipe "a".toList "exit 1".toList, namedRecipe "c".toList "sleep".toList] = 2 ∧
    (ConfirmCompatibleRecipes cancellingShell testStatus
      [namedRecipe "a".toList "exit 1".toList, namedRecipe "c".toList "sleep".toList]
      testManifest).1 = some .cancelled ∧
    reported (ConfirmCompatibleRecipes cancellingShell testStatus
      [namedRecipe "a".toList "exit 1".toList, namedRecipe "c".toList "sleep".toList]
      testManifest).1 = [] ∧
    List.countP (nonCompatible cancellingShell testManifest)
      [namedRecipe "c".toList "sleep".toList] = 1 ∧
    (ConfirmCompatibleRecipes cancellingShell testStatus
      [namedRecipe "c".toList "sleep".toList] testManifest).1 = some .cancelled := by
  decide

/-- C11, amended: for a list of recipes none of whose validations is
cancelled, of which exactly `K` are classified non-compatible,
`ConfirmCompatibleRecipes` returns no error if and only if `K = 0`;
otherwise it returns one aggregated error that enumerates exactly those `K`
recipes, by name and reason; and for every permutation of the recipe list
the recipes reported are the same, up to their order. -/
theorem ConfirmCompatibleRecipes_aggregate
    (exec : GoString → HostSnapshot → ExecutionResult) (status status' : InstallStatus)
    (recipes recipes' : List OpenInstallationRecipe) (host : HostSnapshot) (K : Nat)
    (hrun : ∀ r ∈ recipes, cancelledDuring exec r host = false)
    (hK : recipes.countP (nonCompatible exec host) = K)
    (hperm : recipes'.Perm recipes) :
    ((ConfirmCompatibleRecipes exec status recipes host).1 = none ↔ K = 0) ∧
    (K ≠ 0 → ∃ entries,
      (ConfirmCompatibleRecipes exec status recipes host).1 = some (.excluded entries) ∧
      entries.length = K ∧
      entries = (recipes.filter (nonCompatible exec host)).map
        (fun r => (⟨r.Name, evaluate exec r host⟩ : FilterError))) ∧
    (reported (ConfirmCompatibleRecipes exec status' recipes' host).1).Perm
      (reported (ConfirmCompatibleRecipes exec status recipes host).1) := by
  have hrun' : ∀ r ∈ recipes', cancelledDuring exec r host = false :=
    fun r hr => hrun r (hperm.mem_iff.1 hr)
  have hlen : ((recipes.filter (nonCompatible exec host)).map
      (fun r => (⟨r.Name, evaluate exec r host⟩ : FilterError))).length = K := by
    rw [List.length_map, ← List.countP_eq_length_filter, hK]
  have hres : (ConfirmCompatibleRecipes exec status recipes host).1 =
      if ((recipes.filter (nonCompatible exec host)).map
          (fun r => (⟨r.Name, evaluate exec r host⟩ : FilterError))).isEmpty
      then none
      else some (.excluded ((recipes.filter (nonCompatible exec host)).map
          (fun r => (⟨r.Name, evaluate exec r host⟩ : FilterError)))) := by
    unfold ConfirmCompatibleRecipes
    simp only [collectExcluded_fst exec host recipes hrun]
  refine ⟨?_, ?_, ?_⟩
  · rw [hres]
    cases hent : (recipes.filter (nonCompatible exec host)).map
        (fun r => (⟨r.Name, evaluate exec r host⟩ : FilterError)) with
    | nil =>
      rw [hent] at hlen
      simp only [List.length_nil] at hlen
      simp [hlen.symm]
    | cons e es =>
      rw [hent] at hlen
      simp only [List.length_cons] at hlen
      have hpos : K ≠ 0 := by omega
      simp [hpos]
  · intro hpos
    refine ⟨_, ?_, hlen, rfl⟩
    rw [hres]
    cases hent : (recipes.filter (nonCompatible exec host)).map
        (fun r => (⟨r.Name, evaluate exec r host⟩ : FilterError)) with
    | nil =>
      rw [hent] at hlen
      simp only [List.length_nil] at hlen
      exact absurd hlen.symm hpos
    | cons e es => simp
  · rw [reported_ConfirmCompatibleRecipes exec status' recipes' host hrun',
      reported_ConfirmCompatibleRecipes exec status recipes host hrun]
    exact (hperm.filter _).map _

/-- Witness for C11, amended: three recipes matched by the process `apache2`,
none cancelled, of which `a` exits 1 and `c` exits 132; the error lists `a`
and `c`, in either order of evaluation, and a set with only the passing
recipe `b` gives no error. -/
theorem ConfirmCompatibleRecipes_aggregate_witness :
    (ConfirmCompatibleRecipes cancellingShell testStatus
      [namedRecipe "b".toList "exit 0".toList] testManifest).1 = none ∧
    (∃ entries, (ConfirmCompatibleRecipes cancellingShell testStatus
        [namedRecipe "a".toList "exit 1".toList, namedRecipe "b".toList "exit 0".toList,
          namedRecipe "c".toList "exit 132".toList] testManifest).1 =
          some (.excluded entries) ∧
      entries.length = 2 ∧
      entries = [⟨"a".toList, .Unsupported⟩, ⟨"c".toList, .DetectedUnsupported⟩]) ∧
    (reported (ConfirmCompatibleRecipes cancellingShell testStatus
        [namedRecipe "b".toList "exit 0".toList, namedRecipe "a".toList "exit 1".toList,
          namedRecipe "c".toList "exit 132".toList] testManifest).1).Perm
      (reported (ConfirmCompatibleRecipes cancellingShell testStatus
        [namedRecipe "a".toList "exit 1".toList, namedRecipe "b".toList "exit 0".toList,
          namedRecipe "c".toList "exit 132".toList] testManifest).1) :=
  ⟨(ConfirmCompatibleRecipes_aggregate cancellingShell testStatus testStatus
      [namedRecipe "b".toList "exit 0".toList] [namedRecipe "b".toList "exit 0".toList]
      testManifest 0 (by decide) (by decide) (List.Perm.refl _)).1.2 rfl,
   (ConfirmCompatibleRecipes_aggregate cancellingShell testStatus testStatus
      [namedRecipe "a".toList "exit 1".toList, namedRecipe "b".toList "exit 0".toList,
        namedRecipe "c".toList "exit 132".toList]
      [namedRecipe "b".toList "exit 0".toList, namedRecipe "a".toList "exit 1".toList,
        namedRecipe "c".toList "exit 132".toList]
      testManifest 2 (by decide) (by decide) (List.Perm.swap _ _ _)).2.1 (by decide),
   (ConfirmCompatibleRecipes_aggregate cancellingShell testStatus testStatus
      [namedRecipe "a".toList "exit 1".toList, namedRecipe "b".toList "exit 0".toList,
        namedRecipe "c".toList "exit 132".toList]
      [namedRecipe "b".toList "exit 0".toList, namedRecipe "a".toList "exit 1".toList,
        namedRecipe "c".toList "exit 132".toList]
      testManifest 2 (by decide) (by decide) (List.Perm.swap _ _ _)).2.2⟩
